import Mathlib

/-
Shallow embedding of the cj-store economy core (Store actor, persistence
repository, spatial allocator) for checking the natural-language spec
against the source.

Modelling conventions:
* Rust f64 balances/amounts are modelled as exact rationals.
* Rust HashMap is modelled as an association list with HashMap semantics
  (insert replaces the entry with the same key; lookup finds the unique
  entry); keys are the Strings the source uses.
* The external Directory capability (User::get_uuid, a blocking web call)
  is a parameter of type Dir = String -> Except String String.
* Rust panics (.unwrap() on an error) are modelled as a distinguished
  outcome (Option.none, or PayResult.panicked), never as a default value.
* File-system state for the repository layer is the list of file names in
  the entity directory.
-/

namespace CJStore

/-- world position, types/position.rs (i32 coordinates as Int) -/
structure Position where
  x : Int
  y : Int
  z : Int
deriving DecidableEq, Repr

/-- types/user.rs: User record; balance is f64 in the source, modelled as an
exact rational -/
structure User where
  uuid : String
  username : String
  balance : Rat
deriving DecidableEq, Repr

/-- types/pair.rs: Pair record -/
structure Pair where
  item : String
  item_stock : Int
  currency_stock : Rat
deriving DecidableEq, Repr

/-- order.rs: OrderType -/
inductive OrderType where
  | Buy
  | Sell
  | Deposit
  | Withdraw
deriving DecidableEq, Repr

/-- order.rs: Order record -/
structure Order where
  order_type : OrderType
  item : String
  amount : Int
  user_uuid : String
deriving DecidableEq, Repr

/-- trade.rs: TradeType -/
inductive TradeType where
  | Buy
  | Sell
  | AddStock
  | RemoveStock
deriving DecidableEq, Repr

/-- trade.rs: Trade record; the chrono UTC timestamp is modelled as its
RFC3339 string rendering (it is only ever used as a storage key) -/
structure Trade where
  trade_type : TradeType
  item : String
  amount : Int
  amount_currency : Rat
  user_uuid : String
  timestamp : String
deriving DecidableEq, Repr

/-- chest.rs: Chest record; amounts is the fixed 54-slot vector -/
structure Chest where
  id : Int
  node_id : Int
  index : Int
  position : Position
  item : String
  amounts : List Int
deriving DecidableEq, Repr

/-- types/node.rs: Node record -/
structure Node where
  id : Int
  position : Position
  chests : List Chest
deriving DecidableEq, Repr

/-- storage.rs: Storage record -/
structure Storage where
  position : Position
  nodes : List Node
deriving DecidableEq, Repr

/-- The external Directory capability (User::get_uuid in user.rs): resolves a
username to a stable uuid, or fails with an error string -/
def Dir : Type := String → Except String String

/-- HashMap-semantics association list: membership of a key -/
def containsKeyAL (k : String) : List (String × α) → Bool
  | [] => false
  | (k', _) :: t => if k' = k then true else containsKeyAL k t

/-- HashMap-semantics association list: lookup -/
def lookupAL (k : String) : List (String × α) → Option α
  | [] => none
  | (k', v) :: t => if k' = k then some v else lookupAL k t

/-- HashMap-semantics association list: insert (replaces an existing entry
with the same key, otherwise appends) -/
def insertAL (k : String) (v : α) : List (String × α) → List (String × α)
  | [] => [(k, v)]
  | (k', v') :: t => if k' = k then (k, v) :: t else (k', v') :: insertAL k v t

/-- HashMap-semantics association list: in-place modification of the entry
with the given key (models HashMap::get_mut on a key known to be present) -/
def modifyAL (k : String) (f : α → α) : List (String × α) → List (String × α)
  | [] => []
  | (k', v) :: t => if k' = k then (k', f v) :: t else (k', v) :: modifyAL k f t

/-- store.rs: the Store actor state (communication channels elided) -/
structure Store where
  pairs : List (String × Pair)
  users : List (String × User)
  orders : List Order
  trades : List Trade
  storage : Storage
deriving DecidableEq, Repr

/-- user.rs User::new: resolves the username via the Directory and unwraps;
a Directory failure is a panic, modelled as none -/
def User.new (dir : Dir) (username : String) : Option User :=
  match dir username with
  | Except.ok uuid => some { uuid := uuid, username := username, balance := 0 }
  | Except.error _ => none

/-- Outcome of Store::pay: success and error both carry the resulting Store
state (the Rust method mutates self in place); panicked models an
unwrap on an error inside the call -/
inductive PayResult where
  | ok (s : Store)
  | err (msg : String) (s : Store)
  | panicked
deriving DecidableEq, Repr

/-- store.rs Store::pay, translated clause by clause. Numeric formatting
inside error strings is elided (the source interpolates the f64 values);
the two get_mut().unwrap() calls of the transfer are modelled by modifyAL,
whose key is present by the preceding contains_key checks/insert. -/
def Store.pay (dir : Dir) (s : Store) (payer_username payee_username : String)
    (amount : Rat) : PayResult :=
  match dir payer_username with
  | Except.error e => PayResult.err e s
  | Except.ok payer_uuid =>
  match dir payee_username with
  | Except.error e => PayResult.err e s
  | Except.ok payee_uuid =>
  if ¬ containsKeyAL payer_uuid s.users then
    PayResult.err ("Payer with UUID " ++ payer_uuid ++ " not found") s
  else
    -- create payee if absent: User::new(payee_uuid.to_string()) resolves the
    -- *uuid string* through the Directory and unwraps
    match (if containsKeyAL payee_uuid s.users then some s.users
           else (User.new dir payee_uuid).map
             (fun u => insertAL payee_uuid u s.users)) with
    | none => PayResult.panicked
    | some users1 =>
    match lookupAL payer_uuid users1 with
    | none => PayResult.panicked
    | some payer =>
    if payer.balance < amount then
      PayResult.err "Insufficient balance" { s with users := users1 }
    else if amount ≤ 0 then
      PayResult.err "Amount must be positive" { s with users := users1 }
    else
      let users2 := modifyAL payer_uuid
        (fun u => { u with balance := u.balance - amount }) users1
      let users3 := modifyAL payee_uuid
        (fun u => { u with balance := u.balance + amount }) users2
      let users4 := modifyAL payer_uuid
        (fun u => { u with username := payer_username }) users3
      let users5 := modifyAL payee_uuid
        (fun u => { u with username := payee_username }) users4
      PayResult.ok { s with users := users5 }

/-- store.rs Store::add_pair: insert only when absent, then return the stored
record (the final get().unwrap() cannot fail, hence the total map) -/
def Store.add_pair (s : Store) (item : String) (item_stock : Int)
    (currency_stock : Rat) : Option (Store × Pair) :=
  let pairs1 :=
    if containsKeyAL item s.pairs then s.pairs
    else insertAL item
      { item := item, item_stock := item_stock, currency_stock := currency_stock }
      s.pairs
  (lookupAL item pairs1).map (fun p => ({ s with pairs := pairs1 }, p))

/-- store.rs Store::add_user: get_uuid(username).unwrap() (a Directory failure
panics, modelled as none); insert User::new(username) only when the uuid key
is absent; return the stored record -/
def Store.add_user (dir : Dir) (s : Store) (username : String) :
    Option (Store × User) :=
  match dir username with
  | Except.error _ => none
  | Except.ok uuid =>
    if containsKeyAL uuid s.users then
      (lookupAL uuid s.users).map (fun u => (s, u))
    else
      (User.new dir username).bind (fun u =>
        let users1 := insertAL uuid u s.users
        (lookupAL uuid users1).map (fun v => ({ s with users := users1 }, v)))

/-- store.rs Store::get_user_balance: 0.0 whenever resolution fails or the
user is absent, otherwise the stored balance; read-only -/
def Store.get_user_balance (dir : Dir) (s : Store) (username : String) : Rat :=
  match dir username with
  | Except.ok uuid => ((lookupAL uuid s.users).map User.balance).getD 0
  | Except.error _ => 0

/-- sum of all balances of a user map -/
def sumBalances (l : List (String × User)) : Rat :=
  (l.map (fun p => p.2.balance)).sum

/-!  Spatial allocator (types/node.rs, chest.rs).  Node ids are non-negative
in the program (Storage::add_node uses the vector length), so the ring search
is modelled on Nat.  The fuel argument bounds the Rust while-loop; fuel = id
always suffices because ring*(ring+1)*4 ≥ id+1 once ring reaches id. -/

/-- the while-loop of Node::calc_position: smallest ring with
ring*(ring+1)*4 ≥ id+1, found by linear search from ring upward -/
def findRingAux (id : Nat) : Nat → Nat → Nat
  | 0, ring => ring
  | fuel + 1, ring =>
    if ring * (ring + 1) * 4 < id + 1 then findRingAux id fuel (ring + 1)
    else ring

/-- ring containing node id (id ≥ 1), as computed by Node::calc_position -/
def findRing (id : Nat) : Nat :=
  findRingAux id id 1

/-- the (dx, dz) offset pair of Node::calc_position -/
def nodeOffset (id : Nat) : Int × Int :=
  if id = 0 then (-2, 0)
  else
    let ring := findRing id
    let pos := id - (ring - 1) * ring * 4
    let side := 2 * ring
    match pos / side with
    | 0 => (-2 + (ring : Int), -(ring : Int) + (pos : Int))
    | 1 => (-2 + (ring : Int) - ((pos : Int) - (side : Int)), (ring : Int))
    | 2 => (-2 - (ring : Int), (ring : Int) - ((pos : Int) - 2 * (side : Int)))
    | _ => (-2 - (ring : Int) + ((pos : Int) - 3 * (side : Int)), -(ring : Int))

/-- types/node.rs Node::calc_position: spiral offset scaled by 3, y kept -/
def Node.calc_position (id : Nat) (storage_position : Position) : Position :=
  let o := nodeOffset id
  { x := storage_position.x + o.1 * 3
    y := storage_position.y
    z := storage_position.z + o.2 * 3 }

/-- chest.rs Chest::new: id = node_id*4 + index, position from the fixed
per-index offset table; an index outside 0..3 panics (modelled as none) -/
def Chest.new (node_id : Int) (node_position : Position) (index : Int) :
    Option Chest :=
  let id := node_id * 4 + index
  let pos :=
    if index = 0 then
      some { x := node_position.x, y := node_position.y + 1, z := node_position.z - 1 : Position }
    else if index = 1 then
      some { x := node_position.x + 1, y := node_position.y + 1, z := node_position.z - 1 : Position }
    else if index = 2 then
      some { x := node_position.x, y := node_position.y, z := node_position.z - 1 : Position }
    else if index = 3 then
      some { x := node_position.x + 1, y := node_position.y, z := node_position.z - 1 : Position }
    else none
  pos.map (fun p =>
    { id := id, node_id := node_id, index := index, position := p,
      item := "", amounts := List.replicate 54 0 })

/-- chest.rs Chest::node_position: inverse of the placement offset table -/
def Chest.node_position (c : Chest) : Option Position :=
  if c.index = 0 then
    some { x := c.position.x, y := c.position.y - 1, z := c.position.z + 1 }
  else if c.index = 1 then
    some { x := c.position.x - 1, y := c.position.y - 1, z := c.position.z + 1 }
  else if c.index = 2 then
    some { x := c.position.x, y := c.position.y, z := c.position.z + 1 }
  else if c.index = 3 then
    some { x := c.position.x - 1, y := c.position.y, z := c.position.z + 1 }
  else none

/-- types/node.rs Node::new: the node position plus the 4 chests of indices
0..3 (each Chest::new succeeds on these indices) -/
def Node.chestsOf (node_id : Int) (node_position : Position) : List Chest :=
  (List.range 4).filterMap (fun i => Chest.new node_id node_position (i : Int))

/-!  Repository layer (save_all of user.rs / pair.rs / trade.rs).  The
file-system state of one entity directory is the list of file names in it.
save_all writes one file per entity (create or overwrite), then deletes every
.json file whose name is not among the just-written set. -/

/-- the write phase: each expected file is created if absent (overwriting
leaves the name present) -/
def writeFiles (expected : List String) (fs : List String) : List String :=
  expected.foldl (fun acc f => if f ∈ acc then acc else acc ++ [f]) fs

/-- the repository's extension test: the file name ends in .json -/
def isJsonFile (f : String) : Bool :=
  List.isSuffixOf ".json".data f.data

/-- save_all on file names: write every expected file, then remove orphaned
.json files (files without the .json extension are never touched) -/
def saveAllFiles (expected : List String) (fs : List String) : List String :=
  (writeFiles expected fs).filter
    (fun f => ! isJsonFile f || decide (f ∈ expected))

/-- user.rs User::save_all: file names come from each stored User's uuid -/
def User.saveAllFS (users : List (String × User)) (fs : List String) :
    List String :=
  saveAllFiles (users.map (fun p => p.2.uuid ++ ".json")) fs

/-- pair.rs Pair::save_all: file names come from each stored Pair's item -/
def Pair.saveAllFS (pairs : List (String × Pair)) (fs : List String) :
    List String :=
  saveAllFiles (pairs.map (fun p => p.2.item ++ ".json")) fs

/-- trade.rs Trade::save_all: file names come from the RFC3339 timestamp with
the colons replaced by dashes -/
def Trade.saveAllFS (trades : List Trade) (fs : List String) : List String :=
  saveAllFiles (trades.map (fun t => t.timestamp.replace ":" "-" ++ ".json")) fs

/-!  Store::save (store.rs lines 491-499) and its durability barrier.  The
repository calls are injected as an environment so the save sequence and its
failure behavior can be stated for every outcome of the disk writes. -/

/-- one full-save call Store::save can issue -/
inductive SaveAction where
  | savePairs
  | saveUsers
  | saveOrders
  | saveStorage
  | saveTrades
deriving DecidableEq, Repr

/-- outcomes of the disk writes, one per entity collection: the repository
behavior Store::save runs against -/
structure SaveEnv where
  pairsResult : List (String × Pair) → Except String Unit
  usersResult : List (String × User) → Except String Unit
  ordersResult : List Order → Except String Unit
  storageResult : Storage → Except String Unit
  tradesResult : List Trade → Except String Unit

/-- outcome of Store::save: err propagates to the run loop (which logs it and
continues); panicked models the .unwrap() on Storage::save -/
inductive SaveOutcome where
  | ok
  | err (e : String)
  | panicked
deriving DecidableEq, Repr

/-- store.rs Store::save: Pair::save_all? then User::save_all? then
Order::save_all? then Storage::save(..).unwrap(); Trade::save_all is never
invoked.  Returns the outcome and the sequence of save calls issued. -/
def Store.save (env : SaveEnv) (s : Store) : SaveOutcome × List SaveAction :=
  match env.pairsResult s.pairs with
  | Except.error e => (SaveOutcome.err e, [SaveAction.savePairs])
  | Except.ok _ =>
  match env.usersResult s.users with
  | Except.error e =>
    (SaveOutcome.err e, [SaveAction.savePairs, SaveAction.saveUsers])
  | Except.ok _ =>
  match env.ordersResult s.orders with
  | Except.error e =>
    (SaveOutcome.err e,
     [SaveAction.savePairs, SaveAction.saveUsers, SaveAction.saveOrders])
  | Except.ok _ =>
  match env.storageResult s.storage with
  | Except.error _ =>
    (SaveOutcome.panicked,
     [SaveAction.savePairs, SaveAction.saveUsers, SaveAction.saveOrders,
      SaveAction.saveStorage])
  | Except.ok _ =>
    (SaveOutcome.ok,
     [SaveAction.savePairs, SaveAction.saveUsers, SaveAction.saveOrders,
      SaveAction.saveStorage])

/-!  Lemmas about the HashMap-semantics association list. -/

theorem lookupAL_insertAL (k k' : String) (v : α) (l : List (String × α)) :
    lookupAL k (insertAL k' v l) = if k' = k then some v else lookupAL k l := by
  induction l with
  | nil => simp [insertAL, lookupAL]
  | cons hd t ih =>
    obtain ⟨k2, v2⟩ := hd
    by_cases h2 : k2 = k'
    · subst h2
      by_cases h3 : k2 = k <;> simp [insertAL, lookupAL, h3]
    · by_cases h3 : k2 = k
      · subst h3
        have h4 : ¬ k' = k2 := fun h => h2 h.symm
        simp [insertAL, lookupAL, h2, h4]
      · simp [insertAL, lookupAL, h2, h3, ih]

theorem containsKeyAL_eq_isSome (k : String) (l : List (String × α)) :
    containsKeyAL k l = (lookupAL k l).isSome := by
  induction l with
  | nil => simp [containsKeyAL, lookupAL]
  | cons hd t ih =>
    obtain ⟨k2, v2⟩ := hd
    by_cases h2 : k2 = k <;> simp [containsKeyAL, lookupAL, h2, ih]

theorem containsKeyAL_insertAL (k k' : String) (v : α) (l : List (String × α)) :
    containsKeyAL k (insertAL k' v l) =
      (if k' = k then true else containsKeyAL k l) := by
  rw [containsKeyAL_eq_isSome, containsKeyAL_eq_isSome, lookupAL_insertAL]
  by_cases h : k' = k <;> simp [h]

theorem lookupAL_modifyAL (k k' : String) (f : α → α) (l : List (String × α)) :
    lookupAL k (modifyAL k' f l) =
      (if k' = k then (lookupAL k l).map f else lookupAL k l) := by
  induction l with
  | nil => by_cases h : k' = k <;> simp [modifyAL, lookupAL, h]
  | cons hd t ih =>
    obtain ⟨k2, v2⟩ := hd
    by_cases h2 : k2 = k'
    · subst h2
      by_cases h3 : k2 = k <;> simp [modifyAL, lookupAL, h3]
    · by_cases h3 : k2 = k
      · subst h3
        have h4 : ¬ k' = k2 := fun h => h2 h.symm
        simp [modifyAL, lookupAL, h2, h4]
      · simp [modifyAL, lookupAL, h2, h3, ih]

theorem containsKeyAL_modifyAL (k k' : String) (f : α → α)
    (l : List (String × α)) :
    containsKeyAL k (modifyAL k' f l) = containsKeyAL k l := by
  rw [containsKeyAL_eq_isSome, containsKeyAL_eq_isSome, lookupAL_modifyAL]
  by_cases h : k' = k <;> simp [h]

theorem sumBalances_nil : sumBalances [] = 0 := rfl

theorem sumBalances_cons (k : String) (u : User) (t : List (String × User)) :
    sumBalances ((k, u) :: t) = u.balance + sumBalances t := by
  simp [sumBalances]

theorem sumBalances_modifyAL (k : String) (f : User → User) (d : Rat)
    (hf : ∀ u, (f u).balance = u.balance + d) (l : List (String × User))
    (hc : containsKeyAL k l = true) :
    sumBalances (modifyAL k f l) = sumBalances l + d := by
  induction l with
  | nil => simp [containsKeyAL] at hc
  | cons hd t ih =>
    obtain ⟨k2, v2⟩ := hd
    by_cases h2 : k2 = k
    · simp [modifyAL, h2, sumBalances_cons, hf]
      ring
    · simp only [containsKeyAL, h2, if_false] at hc
      simp [modifyAL, h2, sumBalances_cons, ih hc]
      ring

theorem sumBalances_modifyAL_keep (k : String) (f : User → User)
    (hf : ∀ u, (f u).balance = u.balance) (l : List (String × User)) :
    sumBalances (modifyAL k f l) = sumBalances l := by
  induction l with
  | nil => rfl
  | cons hd t ih =>
    obtain ⟨k2, v2⟩ := hd
    by_cases h2 : k2 = k <;> simp [modifyAL, h2, sumBalances_cons, hf, ih]

theorem sumBalances_insertAL (k : String) (v : User) (l : List (String × User))
    (hc : containsKeyAL k l = false) :
    sumBalances (insertAL k v l) = sumBalances l + v.balance := by
  induction l with
  | nil => simp [insertAL, sumBalances_cons, sumBalances_nil]
  | cons hd t ih =>
    obtain ⟨k2, v2⟩ := hd
    by_cases h2 : k2 = k
    · simp [containsKeyAL, h2] at hc
    · simp only [containsKeyAL, h2, if_false] at hc
      simp [insertAL, h2, sumBalances_cons, ih hc]
      ring

theorem mem_writeFiles (expected fs : List String) (f : String) :
    f ∈ writeFiles expected fs ↔ (f ∈ fs ∨ f ∈ expected) := by
  induction expected generalizing fs with
  | nil => simp [writeFiles]
  | cons e es ih =>
    show f ∈ writeFiles es (if e ∈ fs then fs else fs ++ [e]) ↔ _
    rw [ih]
    by_cases he : e ∈ fs
    · simp [he]
      constructor
      · rintro (h | h)
        · exact Or.inl h
        · exact Or.inr (Or.inr h)
      · rintro (h | h | h)
        · exact Or.inl h
        · exact Or.inl (h ▸ he)
        · exact Or.inr h
    · simp [he, List.mem_append]
      constructor
      · rintro ((h | h) | h)
        · exact Or.inl h
        · exact Or.inr (Or.inl h)
        · exact Or.inr (Or.inr h)
      · rintro (h | h | h)
        · exact Or.inl (Or.inl h)
        · exact Or.inl (Or.inr h)
        · exact Or.inr h

theorem mem_saveAllFiles (expected fs : List String) (f : String) :
    f ∈ saveAllFiles expected fs ↔
      (f ∈ expected ∨ (f ∈ fs ∧ isJsonFile f = false)) := by
  simp only [saveAllFiles, List.mem_filter, mem_writeFiles]
  constructor
  · rintro ⟨hin, hp⟩
    by_cases hexp : f ∈ expected
    · exact Or.inl hexp
    · simp [hexp] at hp
      rcases hin with h | h
      · exact Or.inr ⟨h, by simpa using hp⟩
      · exact absurd h hexp
  · rintro (h | ⟨hfs, hjson⟩)
    · exact ⟨Or.inr h, by simp [h]⟩
    · exact ⟨Or.inl hfs, by simp [hjson]⟩

/-!  Full case analysis of Store::pay, used by the Pay claims. -/

/-- the four mutation steps of the Store::pay success path (debit payer,
credit payee, refresh both usernames), as one map-to-map function -/
def payTransfer (pu pe payer payee : String) (amount : Rat)
    (users1 : List (String × User)) : List (String × User) :=
  modifyAL pe (fun u => { u with username := payee })
    (modifyAL pu (fun u => { u with username := payer })
      (modifyAL pe (fun u => { u with balance := u.balance + amount })
        (modifyAL pu (fun u => { u with balance := u.balance - amount })
          users1)))

theorem pay_spec (dir : Dir) (s : Store) (payer payee : String) (amount : Rat) :
    (∃ e, dir payer = Except.error e ∧
       Store.pay dir s payer payee amount = PayResult.err e s)
  ∨ (∃ pu e, dir payer = Except.ok pu ∧ dir payee = Except.error e ∧
       Store.pay dir s payer payee amount = PayResult.err e s)
  ∨ (∃ pu pe, dir payer = Except.ok pu ∧ dir payee = Except.ok pe ∧
       containsKeyAL pu s.users = false ∧
       Store.pay dir s payer payee amount =
         PayResult.err ("Payer with UUID " ++ pu ++ " not found") s)
  ∨ (∃ pu pe, dir payer = Except.ok pu ∧ dir payee = Except.ok pe ∧
       containsKeyAL pu s.users = true ∧ containsKeyAL pe s.users = false ∧
       User.new dir pe = none ∧
       Store.pay dir s payer payee amount = PayResult.panicked)
  ∨ (∃ pu pe users1 payerU,
       dir payer = Except.ok pu ∧ dir payee = Except.ok pe ∧
       containsKeyAL pu s.users = true ∧
       ((containsKeyAL pe s.users = true ∧ users1 = s.users) ∨
        (containsKeyAL pe s.users = false ∧
         ∃ u0, User.new dir pe = some u0 ∧ u0.balance = 0 ∧
           users1 = insertAL pe u0 s.users)) ∧
       lookupAL pu users1 = some payerU ∧
       lookupAL pu s.users = some payerU ∧
       ((payerU.balance < amount ∧
          Store.pay dir s payer payee amount =
            PayResult.err "Insufficient balance" { s with users := users1 })
        ∨ (¬ payerU.balance < amount ∧ amount ≤ 0 ∧
          Store.pay dir s payer payee amount =
            PayResult.err "Amount must be positive" { s with users := users1 })
        ∨ (¬ payerU.balance < amount ∧ ¬ amount ≤ 0 ∧
          Store.pay dir s payer payee amount =
            PayResult.ok
              { s with users := payTransfer pu pe payer payee amount users1 }))) := by
  cases hdp : dir payer with
  | error e =>
    exact Or.inl ⟨e, rfl, by simp [Store.pay, hdp]⟩
  | ok pu =>
  cases hde : dir payee with
  | error e =>
    exact Or.inr (Or.inl ⟨pu, e, rfl, rfl, by simp [Store.pay, hdp, hde]⟩)
  | ok pe =>
  by_cases hcp : containsKeyAL pu s.users = true
  case neg =>
    have hcp' : containsKeyAL pu s.users = false := by
      simpa using hcp
    exact Or.inr (Or.inr (Or.inl ⟨pu, pe, rfl, rfl, hcp',
      by simp [Store.pay, hdp, hde, hcp']⟩))
  case pos =>
  obtain ⟨payerU, hlk⟩ : ∃ u, lookupAL pu s.users = some u := by
    have h1 := containsKeyAL_eq_isSome pu s.users
    rw [hcp] at h1
    cases h2 : lookupAL pu s.users with
    | none => rw [h2] at h1; simp at h1
    | some u => exact ⟨u, rfl⟩
  by_cases hcpe : containsKeyAL pe s.users = true
  · -- payee already exists: users1 = s.users
    refine Or.inr (Or.inr (Or.inr (Or.inr
      ⟨pu, pe, s.users, payerU, rfl, rfl, hcp, Or.inl ⟨hcpe, rfl⟩, hlk, hlk, ?_⟩)))
    by_cases hlt : payerU.balance < amount
    · exact Or.inl ⟨hlt, by simp [Store.pay, hdp, hde, hcp, hcpe, hlk, hlt]⟩
    by_cases hle : amount ≤ 0
    · exact Or.inr (Or.inl ⟨hlt, hle,
        by simp [Store.pay, hdp, hde, hcp, hcpe, hlk, hlt, hle]⟩)
    · exact Or.inr (Or.inr ⟨hlt, hle,
        by simp [Store.pay, payTransfer, hdp, hde, hcp, hcpe, hlk, hlt, hle]⟩)
  · have hcpe' : containsKeyAL pe s.users = false := by simpa using hcpe
    cases hnew : User.new dir pe with
    | none =>
      exact Or.inr (Or.inr (Or.inr (Or.inl ⟨pu, pe, rfl, rfl, hcp, hcpe', hnew,
        by simp [Store.pay, hdp, hde, hcp, hcpe', hnew]⟩)))
    | some u0 =>
      have hbal0 : u0.balance = 0 := by
        unfold User.new at hnew
        cases h2 : dir pe with
        | ok x => rw [h2] at hnew; simp at hnew; rw [← hnew]
        | error e => rw [h2] at hnew; simp at hnew
      have hne : ¬ pe = pu := by
        intro h2
        rw [h2, hcp] at hcpe'
        exact Bool.noConfusion hcpe'
      have hlk1 : lookupAL pu (insertAL pe u0 s.users) = some payerU := by
        rw [lookupAL_insertAL, if_neg hne, hlk]
      refine Or.inr (Or.inr (Or.inr (Or.inr
        ⟨pu, pe, insertAL pe u0 s.users, payerU, rfl, rfl, hcp,
         Or.inr ⟨hcpe', u0, hnew, hbal0, rfl⟩, hlk1, hlk, ?_⟩)))
      by_cases hlt : payerU.balance < amount
      · exact Or.inl ⟨hlt,
          by simp [Store.pay, hdp, hde, hcp, hcpe', hnew, hlk1, hlt]⟩
      by_cases hle : amount ≤ 0
      · exact Or.inr (Or.inl ⟨hlt, hle,
          by simp [Store.pay, hdp, hde, hcp, hcpe', hnew, hlk1, hlt, hle]⟩)
      · exact Or.inr (Or.inr ⟨hlt, hle,
          by simp [Store.pay, payTransfer, hdp, hde, hcp, hcpe', hnew, hlk1, hlt, hle]⟩)

/-- sum of all balances is preserved by the four mutation steps of the pay
success path, provided both keys are present -/
theorem sumBalances_payTransfer (pu pe payer payee : String) (amount : Rat)
    (l : List (String × User)) (hpu : containsKeyAL pu l = true)
    (hpe : containsKeyAL pe l = true) :
    sumBalances (payTransfer pu pe payer payee amount l) = sumBalances l := by
  unfold payTransfer
  rw [sumBalances_modifyAL_keep pe (fun u => { u with username := payee })
    (fun u => rfl)]
  rw [sumBalances_modifyAL_keep pu (fun u => { u with username := payer })
    (fun u => rfl)]
  rw [sumBalances_modifyAL pe _ amount (fun u => rfl) _
    (by rw [containsKeyAL_modifyAL]; exact hpe)]
  rw [sumBalances_modifyAL pu _ (-amount)
    (fun u => sub_eq_add_neg u.balance amount) l hpu]
  ring

/-- the payer entry after the pay transfer, for distinct payer and payee
keys: username refreshed, balance debited by exactly amount -/
theorem lookupAL_payTransfer_payer (pu pe payer payee : String) (amount : Rat)
    (l : List (String × User)) (hne : ¬ pe = pu) :
    lookupAL pu (payTransfer pu pe payer payee amount l) =
      (lookupAL pu l).map (fun u =>
        { uuid := u.uuid, username := payer, balance := u.balance - amount }) := by
  unfold payTransfer
  rw [lookupAL_modifyAL, if_neg hne, lookupAL_modifyAL, if_pos rfl,
    lookupAL_modifyAL, if_neg hne, lookupAL_modifyAL, if_pos rfl]
  cases lookupAL pu l <;> rfl

/-- the payee entry after the pay transfer, for distinct payer and payee
keys: username refreshed, balance credited by exactly amount -/
theorem lookupAL_payTransfer_payee (pu pe payer payee : String) (amount : Rat)
    (l : List (String × User)) (hne : ¬ pu = pe) :
    lookupAL pe (payTransfer pu pe payer payee amount l) =
      (lookupAL pe l).map (fun u =>
        { uuid := u.uuid, username := payee, balance := u.balance + amount }) := by
  unfold payTransfer
  rw [lookupAL_modifyAL, if_pos rfl, lookupAL_modifyAL, if_neg hne,
    lookupAL_modifyAL, if_pos rfl, lookupAL_modifyAL, if_neg hne]
  cases lookupAL pe l <;> rfl

/-- helper: on the success path of Store::pay the sum of balances is
unchanged -/
theorem pay_ok_sum (dir : Dir) (s : Store) (payer payee : String)
    (amount : Rat) (s' : Store)
    (h : Store.pay dir s payer payee amount = PayResult.ok s') :
    sumBalances s'.users = sumBalances s.users := by
  rcases pay_spec dir s payer payee amount with
    ⟨e, _, heq⟩ | ⟨pu, e, _, _, heq⟩ | ⟨pu, pe, _, _, _, heq⟩ |
    ⟨pu, pe, _, _, _, _, _, heq⟩ |
    ⟨pu, pe, users1, payerU, hdp, hde, hcp, husers1, hlk1, hlk0, hbr⟩
  · rw [heq] at h; exact absurd h (by simp)
  · rw [heq] at h; exact absurd h (by simp)
  · rw [heq] at h; exact absurd h (by simp)
  · rw [heq] at h; exact absurd h (by simp)
  · have hcp1 : containsKeyAL pu users1 = true := by
      rw [containsKeyAL_eq_isSome, hlk1]; rfl
    have hsum1 : sumBalances users1 = sumBalances s.users ∧
        containsKeyAL pe users1 = true := by
      rcases husers1 with ⟨hc, rfl⟩ | ⟨hc, u0, _, hb0, rfl⟩
      · exact ⟨rfl, hc⟩
      · constructor
        · rw [sumBalances_insertAL pe u0 s.users hc, hb0, add_zero]
        · rw [containsKeyAL_insertAL, if_pos rfl]
    rcases hbr with ⟨_, heq⟩ | ⟨_, _, heq⟩ | ⟨_, _, heq⟩
    · rw [heq] at h; exact absurd h (by simp)
    · rw [heq] at h; exact absurd h (by simp)
    · rw [heq] at h
      have h2 : s' = { s with users := payTransfer pu pe payer payee amount users1 } := by
        cases h; rfl
      rw [h2]
      show sumBalances (payTransfer pu pe payer payee amount users1) = _
      rw [sumBalances_payTransfer pu pe payer payee amount users1 hcp1 hsum1.2]
      exact hsum1.1

/-- store.rs Store::run driving pay repeatedly: a sequence of Pay operations,
stopping (none) at the first non-success -/
def Store.paySeq (dir : Dir) : Store → List (String × String × Rat) → Option Store
  | s, [] => some s
  | s, op :: rest =>
    match Store.pay dir s op.1 op.2.1 op.2.2 with
    | PayResult.ok s' => Store.paySeq dir s' rest
    | PayResult.err _ _ => none
    | PayResult.panicked => none

/-- helper: conservation extends to any sequence of successful Pay calls -/
theorem paySeq_sum (dir : Dir) (ops : List (String × String × Rat)) :
    ∀ s s', Store.paySeq dir s ops = some s' →
      sumBalances s'.users = sumBalances s.users := by
  induction ops with
  | nil =>
    intro s s' h
    simp only [Store.paySeq, Option.some.injEq] at h
    rw [← h]
  | cons op rest ih =>
    intro s s' h
    simp only [Store.paySeq] at h
    cases hp : Store.pay dir s op.1 op.2.1 op.2.2 with
    | ok s1 =>
      rw [hp] at h
      rw [ih s1 s' h, pay_ok_sum dir s op.1 op.2.1 op.2.2 s1 hp]
    | err m s1 => rw [hp] at h; exact absurd h (by simp)
    | panicked => rw [hp] at h; exact absurd h (by simp)

/-!  Concrete fixtures used by witnesses and counterexamples. -/

/-- a Directory stub: alice resolves to A, bob to B; the uuid string B also
resolves (so User::new inside pay does not panic) -/
def dir0 : Dir := fun n =>
  if n = "alice" then Except.ok "A"
  else if n = "bob" then Except.ok "B"
  else if n = "B" then Except.ok "B"
  else Except.error "Player not found"

/-- a Directory stub: only alice resolves -/
def dirC : Dir := fun n =>
  if n = "alice" then Except.ok "A" else Except.error "Player not found"

/-- a Directory stub whose lookups always fail -/
def dirFail : Dir := fun _ => Except.error "API error: 500"

/-- store with no entities -/
def stEmpty : Store :=
  { pairs := [], users := [], orders := [], trades := [],
    storage := { position := { x := 0, y := 0, z := 0 }, nodes := [] } }

/-- store with one user: alice (uuid A) holding balance 100 -/
def st0 : Store :=
  { stEmpty with users := [("A", { uuid := "A", username := "alice", balance := 100 })] }

/-- st0 after a successful pay of 50 from alice to the auto-created bob -/
def stPaid : Store :=
  { stEmpty with users :=
      [("A", { uuid := "A", username := "alice", balance := 50 }),
       ("B", { uuid := "B", username := "bob", balance := 50 })] }

/-- st0 after a failed pay that still auto-created the payee record keyed B
(whose username field is the uuid string, per User::new(payee_uuid)) -/
def stB : Store :=
  { stEmpty with users :=
      [("A", { uuid := "A", username := "alice", balance := 100 }),
       ("B", { uuid := "B", username := "B", balance := 0 })] }

/-- store with one user at balance 0 (fresh creation by add_user) -/
def stA0 : Store :=
  { stEmpty with users := [("A", { uuid := "A", username := "alice", balance := 0 })] }

/-- stA0 after an external mutation of the balance to 50 -/
def stA50 : Store :=
  { stEmpty with users := [("A", { uuid := "A", username := "alice", balance := 50 })] }

/-- repository environment in which every disk write succeeds -/
def envOk : SaveEnv :=
  { pairsResult := fun _ => Except.ok (), usersResult := fun _ => Except.ok (),
    ordersResult := fun _ => Except.ok (), storageResult := fun _ => Except.ok (),
    tradesResult := fun _ => Except.ok () }

/-- repository environment in which the Pair write fails -/
def envPairsFail : SaveEnv :=
  { envOk with pairsResult := fun _ => Except.error "disk full" }

/-!  C2 — balance conservation. -/

/-- C2: for every success of pay(payer, payee, amount) the sum of all User
balances is unchanged (first conjunct); this extends to any sequence of
successful Pay operations (second conjunct); and for distinct payer/payee
keys the payer is debited exactly amount while the payee is credited exactly
amount, an absent payee starting from the auto-created balance 0 (remaining
conjuncts). -/
theorem pay_conservation (dir : Dir) :
    (∀ s payer payee amount s',
        Store.pay dir s payer payee amount = PayResult.ok s' →
        sumBalances s'.users = sumBalances s.users)
  ∧ (∀ ops s s', Store.paySeq dir s ops = some s' →
        sumBalances s'.users = sumBalances s.users)
  ∧ (∀ s payer payee pu pe amount s' u,
        dir payer = Except.ok pu → dir payee = Except.ok pe → ¬ pu = pe →
        Store.pay dir s payer payee amount = PayResult.ok s' →
        lookupAL pu s.users = some u →
        ∃ v, lookupAL pu s'.users = some v ∧ v.balance = u.balance - amount)
  ∧ (∀ s payer payee pu pe amount s' w,
        dir payer = Except.ok pu → dir payee = Except.ok pe → ¬ pu = pe →
        Store.pay dir s payer payee amount = PayResult.ok s' →
        lookupAL pe s.users = some w →
        ∃ v, lookupAL pe s'.users = some v ∧ v.balance = w.balance + amount)
  ∧ (∀ s payer payee pu pe amount s',
        dir payer = Except.ok pu → dir payee = Except.ok pe → ¬ pu = pe →
        Store.pay dir s payer payee amount = PayResult.ok s' →
        lookupAL pe s.users = none →
        ∃ v, lookupAL pe s'.users = some v ∧ v.balance = amount) := by
  have hok : ∀ s payer payee amount s',
      Store.pay dir s payer payee amount = PayResult.ok s' →
      ∃ pu pe users1,
        dir payer = Except.ok pu ∧ dir payee = Except.ok pe ∧
        s' = { s with users := payTransfer pu pe payer payee amount users1 } ∧
        ((containsKeyAL pe s.users = true ∧ users1 = s.users) ∨
         (containsKeyAL pe s.users = false ∧
          ∃ u0, User.new dir pe = some u0 ∧ u0.balance = 0 ∧
            users1 = insertAL pe u0 s.users)) := by
    intro s payer payee amount s' h
    rcases pay_spec dir s payer payee amount with
      ⟨e, _, heq⟩ | ⟨pu, e, _, _, heq⟩ | ⟨pu, pe, _, _, _, heq⟩ |
      ⟨pu, pe, _, _, _, _, _, heq⟩ |
      ⟨pu, pe, users1, payerU, hdp, hde, hcp, husers1, hlk1, hlk0, hbr⟩
    · rw [heq] at h; exact absurd h (by simp)
    · rw [heq] at h; exact absurd h (by simp)
    · rw [heq] at h; exact absurd h (by simp)
    · rw [heq] at h; exact absurd h (by simp)
    · rcases hbr with ⟨_, heq⟩ | ⟨_, _, heq⟩ | ⟨_, _, heq⟩
      · rw [heq] at h; exact absurd h (by simp)
      · rw [heq] at h; exact absurd h (by simp)
      · rw [heq] at h
        exact ⟨pu, pe, users1, hdp, hde, by cases h; rfl, husers1⟩
  refine ⟨?_, ?_, ?_, ?_, ?_⟩
  · intro s payer payee amount s' h
    exact pay_ok_sum dir s payer payee amount s' h
  · intro ops s s' h
    exact paySeq_sum dir ops s s' h
  · intro s payer payee pu pe amount s' u hdp hde hne h hlk
    obtain ⟨pu1, pe1, users1, hdp1, hde1, hs', husers1⟩ :=
      hok s payer payee amount s' h
    rw [hdp] at hdp1
    rw [hde] at hde1
    cases hdp1
    cases hde1
    have hne' : ¬ pe = pu := fun h2 => hne h2.symm
    have hlk1 : lookupAL pu users1 = some u := by
      rcases husers1 with ⟨_, rfl⟩ | ⟨_, u0, _, _, rfl⟩
      · exact hlk
      · rw [lookupAL_insertAL, if_neg hne', hlk]
    refine ⟨{ uuid := u.uuid, username := payer, balance := u.balance - amount },
      ?_, rfl⟩
    rw [hs']
    show lookupAL pu (payTransfer pu pe payer payee amount users1) = _
    rw [lookupAL_payTransfer_payer pu pe payer payee amount users1 hne', hlk1]
    rfl
  · intro s payer payee pu pe amount s' w hdp hde hne h hlk
    obtain ⟨pu1, pe1, users1, hdp1, hde1, hs', husers1⟩ :=
      hok s payer payee amount s' h
    rw [hdp] at hdp1
    rw [hde] at hde1
    cases hdp1
    cases hde1
    have hlk1 : lookupAL pe users1 = some w := by
      rcases husers1 with ⟨_, rfl⟩ | ⟨hc, u0, _, _, rfl⟩
      · exact hlk
      · rw [containsKeyAL_eq_isSome, hlk] at hc
        exact absurd hc (by simp)
    refine ⟨{ uuid := w.uuid, username := payee, balance := w.balance + amount },
      ?_, rfl⟩
    rw [hs']
    show lookupAL pe (payTransfer pu pe payer payee amount users1) = _
    rw [lookupAL_payTransfer_payee pu pe payer payee amount users1 hne, hlk1]
    rfl
  · intro s payer payee pu pe amount s' hdp hde hne h hlk
    obtain ⟨pu1, pe1, users1, hdp1, hde1, hs', husers1⟩ :=
      hok s payer payee amount s' h
    rw [hdp] at hdp1
    rw [hde] at hde1
    cases hdp1
    cases hde1
    obtain ⟨u0, hb0, hlk1⟩ : ∃ u0, u0.balance = 0 ∧ lookupAL pe users1 = some u0 := by
      rcases husers1 with ⟨hc, rfl⟩ | ⟨_, u0, _, hb0, rfl⟩
      · rw [containsKeyAL_eq_isSome, hlk] at hc
        exact absurd hc (by simp)
      · exact ⟨u0, hb0, by rw [lookupAL_insertAL, if_pos rfl]⟩
    refine ⟨{ uuid := u0.uuid, username := payee, balance := u0.balance + amount },
      ?_, by rw [hb0]; ring⟩
    rw [hs']
    show lookupAL pe (payTransfer pu pe payer payee amount users1) = _
    rw [lookupAL_payTransfer_payee pu pe payer payee amount users1 hne, hlk1]
    rfl

/-- witness for C2: paying 50 from alice (balance 100) to the absent bob
conserves the total balance (100 = 50 + 50) -/
theorem pay_conservation_witness :
    sumBalances stPaid.users = sumBalances st0.users :=
  (pay_conservation dir0).1 st0 "alice" "bob" 50 stPaid
    (by
      simp [Store.pay, dir0, st0, stPaid, stEmpty, payTransfer, User.new,
        lookupAL, containsKeyAL, insertAL, modifyAL]
      norm_num)

/-!  C1 — pay failure atomicity.  The claim as stated is false: the payee is
auto-created before the balance and amount checks, so a failure of those two
checks leaves the user map mutated. -/

/-- C1 counterexample: with alice at balance 100 and bob absent, pay of 200
fails the balance check, yet the returned state carries the freshly inserted
payee record keyed B — the user map is not byte-for-byte unchanged and the
insertion happened before a check. -/
theorem pay_failure_mutation_counterexample :
    Store.pay dir0 st0 "alice" "bob" 200 =
      PayResult.err "Insufficient balance" stB
  ∧ ¬ stB.users = st0.users := by
  constructor
  · simp [Store.pay, dir0, st0, stB, stEmpty, User.new,
      lookupAL, containsKeyAL, insertAL]
    norm_num
  · decide

/-- C1 amended: every failing pay returns an error whose cause is one of the
four checks (resolution failure propagating the Directory's error, missing
payer, insufficient balance, non-positive amount); every user present before
the call keeps its exact record (so all pre-existing balances are unchanged)
and pairs/orders/trades/storage are untouched; but the user map either stays
equal or has grown by the auto-created payee with balance 0 — the payee
creation precedes the balance and amount checks. -/
theorem pay_failure_frame_amended (dir : Dir) (s : Store)
    (payer payee : String) (amount : Rat) (msg : String) (s' : Store)
    (h : Store.pay dir s payer payee amount = PayResult.err msg s') :
    (∀ k u, lookupAL k s.users = some u → lookupAL k s'.users = some u)
  ∧ s'.pairs = s.pairs ∧ s'.orders = s.orders ∧ s'.trades = s.trades
  ∧ s'.storage = s.storage
  ∧ (s'.users = s.users ∨
      ∃ pe u0, dir payee = Except.ok pe ∧ containsKeyAL pe s.users = false ∧
        u0.balance = 0 ∧ s'.users = insertAL pe u0 s.users)
  ∧ ((∃ e, dir payer = Except.error e ∧ msg = e)
   ∨ (∃ e, dir payee = Except.error e ∧ msg = e)
   ∨ (∃ pu, dir payer = Except.ok pu ∧ containsKeyAL pu s.users = false ∧
        msg = "Payer with UUID " ++ pu ++ " not found")
   ∨ (msg = "Insufficient balance" ∧
        ∃ pu u, dir payer = Except.ok pu ∧ lookupAL pu s.users = some u ∧
          u.balance < amount)
   ∨ (msg = "Amount must be positive" ∧ amount ≤ 0)) := by
  rcases pay_spec dir s payer payee amount with
    ⟨e, hdp, heq⟩ | ⟨pu, e, hdp, hde, heq⟩ | ⟨pu, pe, hdp, hde, hcp, heq⟩ |
    ⟨pu, pe, _, _, _, _, _, heq⟩ |
    ⟨pu, pe, users1, payerU, hdp, hde, hcp, husers1, hlk1, hlk0, hbr⟩
  · rw [heq] at h
    obtain ⟨hm, hs⟩ : e = msg ∧ s = s' := by
      constructor <;> cases h <;> rfl
    subst hm
    subst hs
    exact ⟨fun k u hk => hk, rfl, rfl, rfl, rfl, Or.inl rfl,
      Or.inl ⟨e, hdp, rfl⟩⟩
  · rw [heq] at h
    obtain ⟨hm, hs⟩ : e = msg ∧ s = s' := by
      constructor <;> cases h <;> rfl
    subst hm
    subst hs
    exact ⟨fun k u hk => hk, rfl, rfl, rfl, rfl, Or.inl rfl,
      Or.inr (Or.inl ⟨e, hde, rfl⟩)⟩
  · rw [heq] at h
    obtain ⟨hm, hs⟩ :
        ("Payer with UUID " ++ pu ++ " not found") = msg ∧ s = s' := by
      constructor <;> cases h <;> rfl
    subst hm
    subst hs
    exact ⟨fun k u hk => hk, rfl, rfl, rfl, rfl, Or.inl rfl,
      Or.inr (Or.inr (Or.inl ⟨pu, hdp, hcp, rfl⟩))⟩
  · rw [heq] at h
    exact absurd h (by simp)
  · have hframe : ∀ k u, lookupAL k s.users = some u →
        lookupAL k users1 = some u := by
      rcases husers1 with ⟨_, rfl⟩ | ⟨hc, u0, _, _, rfl⟩
      · exact fun k u hk => hk
      · intro k u hk
        rw [lookupAL_insertAL]
        have hne : ¬ pe = k := by
          intro h2
          subst h2
          rw [containsKeyAL_eq_isSome, hk] at hc
          exact Bool.noConfusion hc
        rw [if_neg hne]
        exact hk
    have husers : users1 = s.users ∨
        ∃ pe' u0, dir payee = Except.ok pe' ∧
          containsKeyAL pe' s.users = false ∧ u0.balance = 0 ∧
          users1 = insertAL pe' u0 s.users := by
      rcases husers1 with ⟨_, rfl⟩ | ⟨hc, u0, _, hb0, rfl⟩
      · exact Or.inl rfl
      · exact Or.inr ⟨pe, u0, hde, hc, hb0, rfl⟩
    rcases hbr with ⟨hlt, heq⟩ | ⟨_, hle, heq⟩ | ⟨_, _, heq⟩
    · rw [heq] at h
      obtain ⟨hm, hs⟩ :
          ("Insufficient balance" = msg) ∧ { s with users := users1 } = s' := by
        constructor <;> cases h <;> rfl
      subst hm
      rw [← hs]
      exact ⟨hframe, rfl, rfl, rfl, rfl, husers,
        Or.inr (Or.inr (Or.inr (Or.inl ⟨rfl, pu, payerU, hdp, hlk0, hlt⟩)))⟩
    · rw [heq] at h
      obtain ⟨hm, hs⟩ :
          ("Amount must be positive" = msg) ∧ { s with users := users1 } = s' := by
        constructor <;> cases h <;> rfl
      subst hm
      rw [← hs]
      exact ⟨hframe, rfl, rfl, rfl, rfl, husers,
        Or.inr (Or.inr (Or.inr (Or.inr ⟨rfl, hle⟩)))⟩
    · rw [heq] at h
      exact absurd h (by simp)

/-- witness for the amended C1: on the concrete failing pay of 200, alice's
pre-existing record is intact in the returned state -/
theorem pay_failure_frame_witness :
    lookupAL "A" stB.users =
      some { uuid := "A", username := "alice", balance := 100 } :=
  (pay_failure_frame_amended dir0 st0 "alice" "bob" 200 "Insufficient balance"
      stB
      (by
        simp [Store.pay, dir0, st0, stB, stEmpty, User.new,
          lookupAL, containsKeyAL, insertAL]
        norm_num)).1
    "A" { uuid := "A", username := "alice", balance := 100 } (by decide)

/-!  C9 — the payee is auto-created and survives failure of the later
checks. -/

/-- C9: when both usernames resolve, the payer has an account, the payee does
not, the payee-creation resolution succeeds (no panic), and the call then
fails the balance check or the amount check, pay returns an error whose
returned state contains the freshly inserted payee with balance 0. -/
theorem pay_creates_payee_on_failure (dir : Dir) (s : Store)
    (payer payee pu pe : String) (amount : Rat) (payerU : User)
    (hdp : dir payer = Except.ok pu) (hde : dir payee = Except.ok pe)
    (hcp : containsKeyAL pu s.users = true)
    (hcpe : containsKeyAL pe s.users = false)
    (hnew : (User.new dir pe).isSome = true)
    (hlk : lookupAL pu s.users = some payerU)
    (hfail : payerU.balance < amount ∨ amount ≤ 0) :
    ∃ msg s' u0, Store.pay dir s payer payee amount = PayResult.err msg s'
      ∧ lookupAL pe s'.users = some u0 ∧ u0.balance = 0 := by
  rcases pay_spec dir s payer payee amount with
    ⟨e, hdp1, _⟩ | ⟨pu1, e, _, hde1, _⟩ | ⟨pu1, pe1, hdp1, hde1, hcp1, _⟩ |
    ⟨pu1, pe1, hdp1, hde1, _, _, hnew1, _⟩ |
    ⟨pu1, pe1, users1, payerU1, hdp1, hde1, hcp1, husers1, hlk1, hlk0, hbr⟩
  · rw [hdp] at hdp1; exact absurd hdp1 (by simp)
  · rw [hde] at hde1; exact absurd hde1 (by simp)
  · rw [hdp] at hdp1
    cases hdp1
    rw [hcp] at hcp1
    exact absurd hcp1 (by simp)
  · rw [hde] at hde1
    cases hde1
    rw [hnew1] at hnew
    exact absurd hnew (by simp)
  · rw [hdp] at hdp1
    cases hdp1
    rw [hde] at hde1
    cases hde1
    rw [hlk] at hlk0
    cases hlk0
    obtain ⟨u0, hb0, husers1eq⟩ :
        ∃ u0, u0.balance = 0 ∧ users1 = insertAL pe u0 s.users := by
      rcases husers1 with ⟨hc, _⟩ | ⟨_, u0, _, hb0, heq1⟩
      · rw [hcpe] at hc
        exact absurd hc (by simp)
      · exact ⟨u0, hb0, heq1⟩
    have hlkpe : lookupAL pe users1 = some u0 := by
      rw [husers1eq, lookupAL_insertAL, if_pos rfl]
    rcases hbr with ⟨hlt, heq⟩ | ⟨hlt, hle, heq⟩ | ⟨hlt, hle, _⟩
    · exact ⟨"Insufficient balance", { s with users := users1 }, u0, heq,
        hlkpe, hb0⟩
    · exact ⟨"Amount must be positive", { s with users := users1 }, u0, heq,
        hlkpe, hb0⟩
    · rcases hfail with h2 | h2
      · exact absurd h2 hlt
      · exact absurd h2 hle

/-- witness for C9: the failed pay of 200 leaves a balance-0 record under key
B in the returned state -/
theorem pay_creates_payee_on_failure_witness :
    (lookupAL "B" stB.users).map User.balance = some 0 := by
  obtain ⟨msg, s1, u0, hpay, hlkB, hbal⟩ :=
    pay_creates_payee_on_failure dir0 st0 "alice" "bob" "A" "B" 200
      { uuid := "A", username := "alice", balance := 100 }
      rfl rfl (by decide) (by decide) rfl (by decide)
      (Or.inl (by norm_num))
  have h2 : Store.pay dir0 st0 "alice" "bob" 200 =
      PayResult.err "Insufficient balance" stB := by
    simp [Store.pay, dir0, st0, stB, stEmpty, User.new,
      lookupAL, containsKeyAL, insertAL]
    norm_num
  rw [h2] at hpay
  obtain ⟨hm, hs⟩ : "Insufficient balance" = msg ∧ stB = s1 := by
    constructor <;> cases hpay <;> rfl
  rw [← hs] at hlkB
  rw [hlkB]
  simp [hbal]

/-!  C10 — get_user_balance collapses three cases to 0 and never fails. -/

/-- C10: get_user_balance returns 0 when the Directory fails, when the
resolved id has no record, and when the stored balance is 0; in every other
case it returns the stored balance (it is a total read-only function of the
Store: no error value, no user creation). -/
theorem get_user_balance_cases (dir : Dir) (s : Store) (username : String) :
    ((∃ e, dir username = Except.error e) →
        Store.get_user_balance dir s username = 0)
  ∧ (∀ uuid, dir username = Except.ok uuid → lookupAL uuid s.users = none →
        Store.get_user_balance dir s username = 0)
  ∧ (∀ uuid u, dir username = Except.ok uuid →
        lookupAL uuid s.users = some u → u.balance = 0 →
        Store.get_user_balance dir s username = 0)
  ∧ (∀ uuid u, dir username = Except.ok uuid →
        lookupAL uuid s.users = some u →
        Store.get_user_balance dir s username = u.balance) := by
  refine ⟨?_, ?_, ?_, ?_⟩
  · rintro ⟨e, he⟩
    simp [Store.get_user_balance, he]
  · intro uuid he hlk
    simp [Store.get_user_balance, he, hlk]
  · intro uuid u he hlk hb
    simp [Store.get_user_balance, he, hlk, hb]
  · intro uuid u he hlk
    simp [Store.get_user_balance, he, hlk]

/-- witness for C10: an unresolvable name on the empty store yields 0 -/
theorem get_user_balance_cases_witness :
    Store.get_user_balance dirC stEmpty "bob" = 0 :=
  (get_user_balance_cases dirC stEmpty "bob").1 ⟨"Player not found", rfl⟩

/-!  C6 — idempotent upsert.  The existing-key behavior holds (nothing is
inserted, the stored record is returned unmodified), but the "same balance
both times even if mutated externally between calls" reading is false: the
second call returns the mutated balance. -/

/-- C6 counterexample: add_user creates alice at balance 0 and returns 0;
after an external mutation of the stored balance to 50, the second add_user
call returns 50, not the same balance as the first call. -/
theorem upsert_balance_counterexample :
    Store.add_user dirC stEmpty "alice" =
      some (stA0, { uuid := "A", username := "alice", balance := 0 })
  ∧ stA50.users = modifyAL "A" (fun u => { u with balance := 50 }) stA0.users
  ∧ Store.add_user dirC stA50 "alice" =
      some (stA50, { uuid := "A", username := "alice", balance := 50 })
  ∧ ¬ (0 : Rat) = 50 := by
  refine ⟨by decide, by decide, by decide, by decide⟩

/-- C6 amended: when the key already exists, add_user (keyed by the resolved
id) and add_pair (keyed by the item) insert nothing, leave the store
unchanged and return the record as currently stored — so a second call
returns the current stored balance, which reflects any external mutation
rather than repeating the first call's value. -/
theorem upsert_idempotent_amended (dir : Dir) (s : Store) :
    (∀ username uuid u, dir username = Except.ok uuid →
        lookupAL uuid s.users = some u →
        Store.add_user dir s username = some (s, u))
  ∧ (∀ item istock cstock p, lookupAL item s.pairs = some p →
        Store.add_pair s item istock cstock = some (s, p)) := by
  constructor
  · intro username uuid u he hlk
    have hc : containsKeyAL uuid s.users = true := by
      rw [containsKeyAL_eq_isSome, hlk]
      rfl
    simp [Store.add_user, he, hc, hlk]
  · intro item istock cstock p hlk
    have hc : containsKeyAL item s.pairs = true := by
      rw [containsKeyAL_eq_isSome, hlk]
      rfl
    simp [Store.add_pair, hc, hlk]

/-- witness for the amended C6: the second add_user call on the externally
mutated store returns the store unchanged with the stored balance 50 -/
theorem upsert_idempotent_witness :
    Store.add_user dirC stA50 "alice" =
      some (stA50, { uuid := "A", username := "alice", balance := 50 }) :=
  (upsert_idempotent_amended dirC stA50).1 "alice" "A"
    { uuid := "A", username := "alice", balance := 50 } rfl (by decide)

/-!  C5 — fatality of errors.  The claim is false: add_user and User::new
unwrap the Directory result and Store::save unwraps the Storage save, so
those error paths panic rather than return. -/

/-- C5 counterexample: a Directory failure inside add_user panics (modelled
as none) instead of returning normally. -/
theorem add_user_panic_counterexample :
    Store.add_user dirFail stEmpty "alice" = none := rfl

/-- C5 amended: error handling is non-fatal on the value-returning paths,
but exactly these panics exist: add_user and User::new panic precisely when
the Directory call fails; Store::save panics precisely when the Storage save
fails (after Pair/User/Order saves succeeded — their failures are returned
to the run loop as values); pay panics precisely when the auto-creation of an
absent payee re-resolves the uuid string through the Directory and that call
fails. -/
theorem nonfatal_errors_amended :
    (∀ dir s username, (Store.add_user dir s username = none ↔
        ∃ e, dir username = Except.error e))
  ∧ (∀ dir username, (User.new dir username = none ↔
        ∃ e, dir username = Except.error e))
  ∧ (∀ env s, ((Store.save env s).1 = SaveOutcome.panicked ↔
        env.pairsResult s.pairs = Except.ok () ∧
        env.usersResult s.users = Except.ok () ∧
        env.ordersResult s.orders = Except.ok () ∧
        ∃ e, env.storageResult s.storage = Except.error e))
  ∧ (∀ dir s payer payee amount,
        (Store.pay dir s payer payee amount = PayResult.panicked ↔
          ∃ pu pe, dir payer = Except.ok pu ∧ dir payee = Except.ok pe ∧
            containsKeyAL pu s.users = true ∧
            containsKeyAL pe s.users = false ∧
            ∃ e, dir pe = Except.error e)) := by
  have hnewiff : ∀ (dir : Dir) (username : String),
      User.new dir username = none ↔ ∃ e, dir username = Except.error e := by
    intro dir username
    constructor
    · intro h
      cases he : dir username with
      | ok uuid => rw [User.new, he] at h; exact absurd h (by simp)
      | error e => exact ⟨e, rfl⟩
    · rintro ⟨e, he⟩
      rw [User.new, he]
  refine ⟨?_, hnewiff, ?_, ?_⟩
  · intro dir s username
    constructor
    · intro h
      cases he : dir username with
      | error e => exact ⟨e, rfl⟩
      | ok uuid =>
        simp only [Store.add_user, he] at h
        by_cases hc : containsKeyAL uuid s.users = true
        · obtain ⟨u, hlk⟩ : ∃ u, lookupAL uuid s.users = some u := by
            rw [containsKeyAL_eq_isSome] at hc
            cases h2 : lookupAL uuid s.users with
            | none => rw [h2] at hc; exact absurd hc (by simp)
            | some u => exact ⟨u, rfl⟩
          rw [if_pos hc] at h
          simp [hlk] at h
        · have hu : User.new dir username = some
              { uuid := uuid, username := username, balance := 0 } := by
            rw [User.new, he]
          rw [if_neg hc, hu] at h
          simp [lookupAL_insertAL] at h
    · rintro ⟨e, he⟩
      simp [Store.add_user, he]
  · intro env s
    constructor
    · intro h
      cases h1 : env.pairsResult s.pairs with
      | error e => simp [Store.save, h1] at h
      | ok u1 =>
        cases u1
        cases h2 : env.usersResult s.users with
        | error e => simp [Store.save, h1, h2] at h
        | ok u2 =>
          cases u2
          cases h3 : env.ordersResult s.orders with
          | error e => simp [Store.save, h1, h2, h3] at h
          | ok u3 =>
            cases u3
            cases h4 : env.storageResult s.storage with
            | error e => exact ⟨rfl, rfl, rfl, e, rfl⟩
            | ok u4 =>
              cases u4
              simp [Store.save, h1, h2, h3, h4] at h
    · rintro ⟨h1, h2, h3, e, h4⟩
      simp [Store.save, h1, h2, h3, h4]
  · intro dir s payer payee amount
    constructor
    · intro h
      rcases pay_spec dir s payer payee amount with
        ⟨e, _, heq⟩ | ⟨pu, e, _, _, heq⟩ | ⟨pu, pe, _, _, _, heq⟩ |
        ⟨pu, pe, hdp, hde, hcp, hcpe, hnew, _⟩ |
        ⟨pu, pe, users1, payerU, _, _, _, _, _, _, hbr⟩
      · rw [heq] at h; exact absurd h (by simp)
      · rw [heq] at h; exact absurd h (by simp)
      · rw [heq] at h; exact absurd h (by simp)
      · exact ⟨pu, pe, hdp, hde, hcp, hcpe, (hnewiff dir pe).mp hnew⟩
      · rcases hbr with ⟨_, heq⟩ | ⟨_, _, heq⟩ | ⟨_, _, heq⟩ <;>
          rw [heq] at h <;> exact absurd h (by simp)
    · rintro ⟨pu, pe, hdp, hde, hcp, hcpe, e, he⟩
      have hnew : User.new dir pe = none := (hnewiff dir pe).mpr ⟨e, he⟩
      simp [Store.pay, hdp, hde, hcp, hcpe, hnew]

/-- witness for the amended C5: User::new on an always-failing Directory
panics -/
theorem nonfatal_errors_witness : User.new dirFail "bob" = none :=
  (nonfatal_errors_amended.2.1 dirFail "bob").mpr ⟨"API error: 500", rfl⟩

/-!  C3 — durability barrier.  The claim is false on two points: Store::save
never calls Trade::save_all, and the Storage save failure panics (unwrap)
rather than being logged. -/

/-- C3 counterexample: even when every disk write would succeed, the save
sequence after a processed message is Pairs, Users, Orders, Storage — the
Trades collection is never saved. -/
theorem save_trades_counterexample :
    Store.save envOk stEmpty =
      (SaveOutcome.ok,
       [SaveAction.savePairs, SaveAction.saveUsers, SaveAction.saveOrders,
        SaveAction.saveStorage])
  ∧ ¬ SaveAction.saveTrades ∈ (Store.save envOk stEmpty).2 := by decide

/-- C3 amended: after each processed message the Store full-saves Pairs,
Users, Orders and the Storage chests in that order — never Trades; a failure
of the Pair/User/Order saves is returned to the run loop (which logs it and
continues), while a Storage save failure panics. -/
theorem save_durability_barrier_amended (env : SaveEnv) (s : Store) :
    ¬ SaveAction.saveTrades ∈ (Store.save env s).2
  ∧ (env.pairsResult s.pairs = Except.ok () →
     env.usersResult s.users = Except.ok () →
     env.ordersResult s.orders = Except.ok () →
     env.storageResult s.storage = Except.ok () →
     Store.save env s = (SaveOutcome.ok,
       [SaveAction.savePairs, SaveAction.saveUsers, SaveAction.saveOrders,
        SaveAction.saveStorage]))
  ∧ (∀ e, env.pairsResult s.pairs = Except.error e →
        Store.save env s = (SaveOutcome.err e, [SaveAction.savePairs]))
  ∧ (∀ e, env.pairsResult s.pairs = Except.ok () →
        env.usersResult s.users = Except.error e →
        Store.save env s =
          (SaveOutcome.err e, [SaveAction.savePairs, SaveAction.saveUsers]))
  ∧ (∀ e, env.pairsResult s.pairs = Except.ok () →
        env.usersResult s.users = Except.ok () →
        env.ordersResult s.orders = Except.error e →
        Store.save env s = (SaveOutcome.err e,
          [SaveAction.savePairs, SaveAction.saveUsers, SaveAction.saveOrders]))
  ∧ (∀ e, env.pairsResult s.pairs = Except.ok () →
        env.usersResult s.users = Except.ok () →
        env.ordersResult s.orders = Except.ok () →
        env.storageResult s.storage = Except.error e →
        Store.save env s = (SaveOutcome.panicked,
          [SaveAction.savePairs, SaveAction.saveUsers, SaveAction.saveOrders,
           SaveAction.saveStorage])) := by
  refine ⟨?_, ?_, ?_, ?_, ?_, ?_⟩
  · cases h1 : env.pairsResult s.pairs with
    | error e => simp [Store.save, h1]
    | ok u1 =>
      cases h2 : env.usersResult s.users with
      | error e => simp [Store.save, h1, h2]
      | ok u2 =>
        cases h3 : env.ordersResult s.orders with
        | error e => simp [Store.save, h1, h2, h3]
        | ok u3 =>
          cases h4 : env.storageResult s.storage with
          | error e => simp [Store.save, h1, h2, h3, h4]
          | ok u4 => simp [Store.save, h1, h2, h3, h4]
  · intro h1 h2 h3 h4
    simp [Store.save, h1, h2, h3, h4]
  · intro e h1
    simp [Store.save, h1]
  · intro e h1 h2
    simp [Store.save, h1, h2]
  · intro e h1 h2 h3
    simp [Store.save, h1, h2, h3]
  · intro e h1 h2 h3 h4
    simp [Store.save, h1, h2, h3, h4]

/-- witness for the amended C3: a failing Pair write makes save return that
error to the loop after issuing only the Pair save -/
theorem save_durability_barrier_witness :
    Store.save envPairsFail stEmpty =
      (SaveOutcome.err "disk full", [SaveAction.savePairs]) :=
  (save_durability_barrier_amended envPairsFail stEmpty).2.2.1 "disk full" rfl

/-!  C4 — spiral ring boundaries.  The claim is false for ids 5, 6, 7: the
boundary search ring*(ring+1)*4 ≥ id+1 puts them in ring 1 (ring 1 spans ids
1..7, ring 2 spans ids 8..23). -/

/-- C4 counterexample: for node id 5 the smallest ring satisfying the
boundary inequality — and the ring the code computes — is 1, not 2. -/
theorem ring_boundary_counterexample :
    findRing 5 = 1 ∧ 1 * (1 + 1) * 4 ≥ 5 + 1 := by decide

/-- C4 amended: node_position(0) uses the special-case offset (-2, 0); for
ids 1..7 the boundary search yields ring 1 (which already satisfies
1*2*4 ≥ id+1), and for ids 8..23 it yields ring 2, ring 1 being
insufficient there. -/
theorem ring_boundaries_amended :
    nodeOffset 0 = (-2, 0)
  ∧ (∀ id, id < 8 → 1 ≤ id → findRing id = 1 ∧ 1 * (1 + 1) * 4 ≥ id + 1)
  ∧ (∀ id, id < 24 → 8 ≤ id →
        findRing id = 2 ∧ 2 * (2 + 1) * 4 ≥ id + 1 ∧
          1 * (1 + 1) * 4 < id + 1) := by
  refine ⟨by decide, by decide, by decide⟩

/-- witness for the amended C4: concrete ids on each side of the boundary -/
theorem ring_boundaries_witness : findRing 3 = 1 ∧ findRing 12 = 2 :=
  ⟨(ring_boundaries_amended.2.1 3 (by decide) (by decide)).1,
   (ring_boundaries_amended.2.2 12 (by decide) (by decide)).1⟩

/-!  C7 — orphan cleanup. -/

/-- a concrete in-memory user collection of size 2 for the size-3 → size-2
orphan-cleanup scenario -/
def usersC7 : List (String × User) :=
  [("a", { uuid := "a", username := "u1", balance := 0 }),
   ("b", { uuid := "b", username := "u2", balance := 0 })]

/-- a concrete pair collection of size 2 for the same scenario -/
def pairsC7 : List (String × Pair) :=
  [("a", { item := "a", item_stock := 0, currency_stock := 0 }),
   ("b", { item := "b", item_stock := 0, currency_stock := 0 })]

/-- C7: after save_all, a file is on disk exactly when it belongs to the
just-written set (one file per entity, named by its stable key) or is a
non-.json file the cleanup never touches — so the .json files exactly mirror
the in-memory collection; in particular saving a size-2 collection over three
previously saved .json files leaves exactly the 2 expected files, for the
User and Pair repositories alike. -/
theorem repo_orphan_cleanup :
    (∀ expected fs f, f ∈ saveAllFiles expected fs ↔
        (f ∈ expected ∨ (f ∈ fs ∧ isJsonFile f = false)))
  ∧ User.saveAllFS usersC7 ["a.json", "b.json", "c.json"] =
      ["a.json", "b.json"]
  ∧ (User.saveAllFS usersC7 ["a.json", "b.json", "c.json"]).length = 2
  ∧ Pair.saveAllFS pairsC7 ["a.json", "b.json", "c.json"] =
      ["a.json", "b.json"] := by
  exact ⟨fun expected fs f => mem_saveAllFiles expected fs f,
    by decide, by decide, by decide⟩

/-- witness for C7: a kept file in the size-3 → size-2 scenario, via the
membership characterization -/
theorem repo_orphan_cleanup_witness :
    "a.json" ∈ saveAllFiles ["a.json", "b.json"] ["a.json", "b.json", "c.json"] :=
  (repo_orphan_cleanup.1 ["a.json", "b.json"] ["a.json", "b.json", "c.json"]
      "a.json").mpr (Or.inl (by decide))

/-!  C8 — chest sub-placement offsets.  The claim is half right: two chests
sit at the node's y and two at y+1, but no chest sits at the node's z — all
four sit at z−1 (the split on the second horizontal axis is on x). -/

/-- C8 counterexample: at a node positioned at the origin, no chest has the
node's z coordinate (the claim demands two) -/
theorem chest_offsets_counterexample :
    ((Node.chestsOf 0 { x := 0, y := 0, z := 0 }).map
        (fun c => c.position.z)).count 0 = 0
  ∧ ¬ ((Node.chestsOf 0 { x := 0, y := 0, z := 0 }).map
        (fun c => c.position.z)).count 0 = 2 := by decide

/-- C8 amended: of the four chests of a node (indices 0..3 via the fixed
offset table), two lie at the node's y and two at y+1, two lie at the node's
x and two at x+1, and all four lie at z−1. -/
theorem chest_offsets_amended (node_id : Int) (p : Position) :
    (Node.chestsOf node_id p).map (fun c => c.position.y) =
      [p.y + 1, p.y + 1, p.y, p.y]
  ∧ (Node.chestsOf node_id p).map (fun c => c.position.x) =
      [p.x, p.x + 1, p.x, p.x + 1]
  ∧ (Node.chestsOf node_id p).map (fun c => c.position.z) =
      [p.z - 1, p.z - 1, p.z - 1, p.z - 1]
  ∧ ((Node.chestsOf node_id p).map (fun c => c.position.y)).count p.y = 2
  ∧ ((Node.chestsOf node_id p).map (fun c => c.position.y)).count (p.y + 1) = 2
  ∧ ((Node.chestsOf node_id p).map (fun c => c.position.x)).count p.x = 2
  ∧ ((Node.chestsOf node_id p).map (fun c => c.position.x)).count (p.x + 1) = 2 := by
  have hy : (Node.chestsOf node_id p).map (fun c => c.position.y) =
      [p.y + 1, p.y + 1, p.y, p.y] := rfl
  have hx : (Node.chestsOf node_id p).map (fun c => c.position.x) =
      [p.x, p.x + 1, p.x, p.x + 1] := rfl
  have hz : (Node.chestsOf node_id p).map (fun c => c.position.z) =
      [p.z - 1, p.z - 1, p.z - 1, p.z - 1] := rfl
  refine ⟨hy, hx, hz, ?_, ?_, ?_, ?_⟩
  · rw [hy]; simp [List.count_cons, beq_iff_eq]
  · rw [hy]; simp [List.count_cons, beq_iff_eq]
  · rw [hx]; simp [List.count_cons, beq_iff_eq]
  · rw [hx]; simp [List.count_cons, beq_iff_eq]

end CJStore
